import Mathlib

/-!
Shallow embedding of the chatbot server in src/server/index.js: the data
model (the messages, responses and user_data tables), the reply resolver
(findResponse with its trigger-keyword data search and its two LIKE
pattern passes), the chat endpoint, history pagination and clearing, and
the bootstrap seeding (initDb).  Strings are modelled as lists of
characters.  SQL LIKE and ILIKE are modelled with the standard percent
and underscore wildcards; the source specifies no ESCAPE clause.
-/

namespace Chatbot

/-- Lowercasing of a string, as SQL LOWER and JS toLowerCase. -/
def toLower (s : List Char) : List Char := s.map Char.toLower

/-- Whitespace characters removed by JS String.prototype.trim:
space, tab, newline, carriage return, vertical tab, form feed,
no-break space and the byte-order mark. -/
def isJsSpace (c : Char) : Bool :=
  c = ' ' || c = '\t' || c = '\n' || c = '\r' ||
    c.toNat = 11 || c.toNat = 12 || c.toNat = 160 || c.toNat = 65279

/-- Drop leading whitespace. -/
def trimLeft (s : List Char) : List Char := s.dropWhile isJsSpace

/-- JS String.prototype.trim: drop leading and trailing whitespace. -/
def trim (s : List Char) : List Char := trimLeft (trimLeft s.reverse).reverse

/-- SQL LIKE pattern matching, anchored at both ends: a percent matches
any sequence of characters, an underscore matches exactly one character,
and any other pattern character matches itself.  The queries in the
source build their patterns without an ESCAPE clause. -/
def likeMatch : List Char → List Char → Bool
  | [], s => s.isEmpty
  | c :: ps, s =>
    if c = '%' then s.tails.any (fun t => likeMatch ps t)
    else
      match s with
      | [] => false
      | x :: rest => if c = '_' then likeMatch ps rest else x == c && likeMatch ps rest

/-- Trigger keywords of the data-query regex, in alternation order. -/
def triggers : List (List Char) :=
  ["search for".toList, "find".toList, "show".toList, "get".toList, "query".toList]

/-- Substring occurrence test: t occurs somewhere inside s. -/
def occursIn (t s : List Char) : Bool := s.tails.any (fun u => t.isPrefixOf u)

/-- Existence test of the regex match: some trigger keyword occurs
somewhere in the text. -/
def containsTrigger (s : List Char) : Bool := triggers.any (fun t => occursIn t s)

/-- First trigger keyword, in alternation order, matching at the head of
the text. -/
def firstTrigger (s : List Char) : Option (List Char) :=
  triggers.find? (fun t => t.isPrefixOf s)

/-- Scanner of the global regex replace: the counter skips the rest of a
matched keyword; at each remaining position the first alternative
matching there is removed, otherwise the character is kept. -/
def stripAux : Nat → List Char → List Char
  | _, [] => []
  | Nat.succ n, _ :: rest => stripAux n rest
  | 0, c :: rest =>
    match firstTrigger (c :: rest) with
    | some t => stripAux (t.length - 1) rest
    | none => c :: stripAux 0 rest

/-- Remove every trigger-keyword occurrence, as the global replace in
findResponse does. -/
def stripTriggers (s : List Char) : List Char := stripAux 0 s

/-- Search term sent to searchUserData: the lowercased message with all
trigger keywords removed and surrounding whitespace trimmed. -/
def searchTerm (lmsg : List Char) : List Char := trim (stripTriggers lmsg)

/-- Row of the user_data table (a Fact). -/
structure UserDataRow where
  id : Nat
  category : List Char
  data_key : List Char
  data_value : List Char
deriving DecidableEq

/-- Row of the responses table (a ReplyPattern). -/
structure ResponseRow where
  id : Nat
  pattern : List Char
  response : List Char
deriving DecidableEq

/-- Row of the messages table. -/
structure MessageRow where
  id : Nat
  content : List Char
  sender : List Char
  timestamp : Nat
deriving DecidableEq

/-- Database state: the three tables, the serial counter of the messages
table, and a clock supplying CURRENT_TIMESTAMP defaults. -/
structure Db where
  messages : List MessageRow
  responses : List ResponseRow
  user_data : List UserDataRow
  nextMessageId : Nat
  now : Nat
deriving DecidableEq

/-- Predicate of the searchUserData query on one row: LOWER(field) LIKE
LOWER(percent-query-percent) on category, data_key and data_value,
joined by OR. -/
def rowMatches (q : List Char) (r : UserDataRow) : Bool :=
  likeMatch (toLower ('%' :: (q ++ ['%']))) (toLower r.category) ||
    likeMatch (toLower ('%' :: (q ++ ['%']))) (toLower r.data_key) ||
      likeMatch (toLower ('%' :: (q ++ ['%']))) (toLower r.data_value)

/-- The searchUserData query: every user_data row whose category, key or
value contains the query, case-insensitively. -/
def searchUserData (rows : List UserDataRow) (q : List Char) : List UserDataRow :=
  rows.filter (rowMatches q)

/-- Answer of the resolver: a data answer carrying matched facts, or a
text answer carrying a canned or fallback string. -/
inductive Reply where
  | data (rows : List UserDataRow)
  | text (content : List Char)
deriving DecidableEq

/-- Fallback string of findResponse. -/
def fallbackText : List Char :=
  "I\x27m not sure how to respond to that. Could you please rephrase or ask something else?".toList

/-- Prefix pass: the first responses row with lower(message) LIKE
lower(pattern) followed by a percent (LIMIT 1). -/
def exactRow (rs : List ResponseRow) (lmsg : List Char) : Option ResponseRow :=
  rs.find? (fun r => likeMatch (toLower r.pattern ++ ['%']) (toLower lmsg))

/-- Containment pass: the first responses row whose pattern occurs
anywhere in the message, case-insensitively (ILIKE, LIMIT 1). -/
def fuzzyRow (rs : List ResponseRow) (lmsg : List Char) : Option ResponseRow :=
  rs.find? (fun r => likeMatch ('%' :: (toLower r.pattern ++ ['%'])) (toLower lmsg))

/-- Content selection of the source: the response of the first row if it
is present and non-empty (JS truthiness of rows[0]?.response), else the
fallback string. -/
def respOrFallback (row : Option ResponseRow) : List Char :=
  match row with
  | some r => if r.response = [] then fallbackText else r.response
  | none => fallbackText

/-- Pattern resolution stage of findResponse: the prefix pass, then the
containment pass only when the prefix pass found no row. -/
def patternResponse (rs : List ResponseRow) (lmsg : List Char) : Reply :=
  match exactRow rs lmsg with
  | some r => Reply.text (respOrFallback (some r))
  | none => Reply.text (respOrFallback (fuzzyRow rs lmsg))

/-- The findResponse resolver: when a trigger keyword occurs in the
lowercased message, search user_data with the stripped and trimmed term
and return the matches if any exist; otherwise fall through to the two
pattern passes. -/
def findResponse (db : Db) (message : List Char) : Reply :=
  let lmsg := toLower message
  if containsTrigger lmsg then
    let data := searchUserData db.user_data (searchTerm lmsg)
    if data.isEmpty then patternResponse db.responses lmsg
    else Reply.data data
  else patternResponse db.responses lmsg

/-- Hex digit character used in JSON control-character escapes. -/
def hexDigit (n : Nat) : Char := if n < 10 then Char.ofNat (48 + n) else Char.ofNat (87 + n)

/-- Escaping of one character inside a JSON string literal, as
JSON.stringify performs it. -/
def jsonEscapeChar (c : Char) : List Char :=
  if c = '"' then ['\\', '"']
  else if c = '\\' then ['\\', '\\']
  else if c = '\n' then ['\\', 'n']
  else if c = '\r' then ['\\', 'r']
  else if c = '\t' then ['\\', 't']
  else if c.toNat = 8 then ['\\', 'b']
  else if c.toNat = 12 then ['\\', 'f']
  else if c.toNat < 32 then ['\\', 'u', '0', '0', hexDigit (c.toNat / 16), hexDigit (c.toNat % 16)]
  else [c]

/-- JSON string literal for a text value. -/
def jsonString (s : List Char) : List Char :=
  '"' :: ((s.map jsonEscapeChar).flatten ++ ['"'])

/-- Decimal JSON number literal. -/
def natLit (n : Nat) : List Char := (Nat.repr n).toList

/-- JSON object for one user_data row, keys in column order. -/
def userDataRowJson (r : UserDataRow) : List Char :=
  "\x7b\"id\":".toList ++ natLit r.id ++
    ",\"category\":".toList ++ jsonString r.category ++
      ",\"data_key\":".toList ++ jsonString r.data_key ++
        ",\"data_value\":".toList ++ jsonString r.data_value ++ "\x7d".toList

/-- JSON.stringify of the reply object persisted as the bot message. -/
def stringifyReply : Reply → List Char
  | Reply.text s =>
      "\x7b\"type\":\"text\",\"content\":".toList ++ (jsonString s ++ "\x7d".toList)
  | Reply.data rows =>
      "\x7b\"type\":\"data\",\"content\":[".toList ++
        (List.intercalate [','] (rows.map userDataRowJson) ++ "]\x7d".toList)

/-- Outcome of the chat endpoint: a JSON reply, a 400 body, or a 500
body carrying the thrown error message. -/
inductive ChatRes where
  | ok (r : Reply)
  | badRequest (error : List Char)
  | serverError (message : List Char)
deriving DecidableEq

/-- The saveMessage insert: a new messages row with the serial id and
the CURRENT_TIMESTAMP default. -/
def saveMessage (db : Db) (content sender : List Char) : Db :=
  { db with
      messages := db.messages ++ [⟨db.nextMessageId, content, sender, db.now⟩],
      nextMessageId := db.nextMessageId + 1,
      now := db.now + 1 }

/-- The chat endpoint.  The three Booleans inject store-write and
resolution failures: a failing statement throws, and every throw inside
the handler body is caught by the single catch, which answers 500 with
the thrown message.  Validation rejects a missing or empty message with
400 before anything else runs. -/
def handleChat (db : Db) (failUserSave failResolve failBotSave : Bool)
    (message : Option (List Char)) : ChatRes × Db :=
  match message with
  | none => (ChatRes.badRequest "Message is required".toList, db)
  | some m =>
    if m.isEmpty then (ChatRes.badRequest "Message is required".toList, db)
    else if failUserSave then (ChatRes.serverError "Failed to save message".toList, db)
    else
      let db1 := saveMessage db m "user".toList
      if failResolve then (ChatRes.serverError "Failed to process response".toList, db1)
      else
        let reply := findResponse db1 m
        if failBotSave then (ChatRes.serverError "Failed to save message".toList, db1)
        else (ChatRes.ok reply, saveMessage db1 (stringifyReply reply) "bot".toList)

/-- Pagination metadata returned by the history endpoint. -/
structure Pagination where
  currentPage : Nat
  totalPages : Nat
  totalMessages : Nat
deriving DecidableEq

/-- Order of the history query: ORDER BY timestamp ASC. -/
def byTime (a b : MessageRow) : Prop := a.timestamp ≤ b.timestamp

instance : DecidableRel byTime := fun a b => Nat.decLe a.timestamp b.timestamp

instance : IsTotal MessageRow byTime := ⟨fun a b => Nat.le_total a.timestamp b.timestamp⟩

instance : IsTrans MessageRow byTime := ⟨fun _ _ _ => Nat.le_trans⟩

/-- The history endpoint: messages sorted oldest-first, a page cut out
with OFFSET and LIMIT, and pagination metadata where totalPages is
Math.ceil of totalMessages over limit. -/
def getMessages (db : Db) (page limit : Nat) : List MessageRow × Pagination :=
  let offset := (page - 1) * limit
  let rows := ((List.insertionSort byTime db.messages).drop offset).take limit
  let totalMessages := db.messages.length
  (rows, ⟨page, (totalMessages + limit - 1) / limit, totalMessages⟩)

/-- The history-clearing endpoint: TRUNCATE TABLE messages. -/
def clearMessages (db : Db) : Db := { db with messages := [] }

/-- Seed rows of the user_data insert in initDb. -/
def userDataSeed : List (List Char × List Char × List Char) :=
  [("personal".toList, "name".toList, "John Doe".toList),
   ("personal".toList, "email".toList, "john@example.com".toList),
   ("preferences".toList, "theme".toList, "dark".toList),
   ("preferences".toList, "language".toList, "english".toList)]

/-- Seed rows of the responses insert in initDb. -/
def responsesSeed : List (List Char × List Char) :=
  [("hello".toList, "Hi there! I\x27m your chatbot assistant. How can I help you today?".toList),
   ("help".toList, "I can assist you with general questions, provide information, or just chat. What would you like to know?".toList),
   ("bye".toList, "Goodbye! Have a great day! Feel free to come back if you need anything.".toList),
   ("show data".toList, "Here\x27s the data you requested: \x7bdata\x7d".toList),
   ("search".toList, "I\x27ll help you search for: \x7bquery\x7d".toList)]

/-- The user_data seeding insert.  The table declares no unique or
exclusion constraint, so the ON CONFLICT DO NOTHING clause has no
conflict to act on and the four rows are inserted on every run. -/
def insertUserDataSeed (rows : List UserDataRow) : List UserDataRow :=
  userDataSeed.foldl (fun acc t => acc ++ [⟨acc.length + 1, t.1, t.2.1, t.2.2⟩]) rows

/-- One row of the responses seeding insert: ON CONFLICT (pattern)
DO UPDATE SET response = EXCLUDED.response. -/
def upsertResponse (rows : List ResponseRow) (pat res : List Char) : List ResponseRow :=
  if rows.any (fun r => r.pattern == pat) then
    rows.map (fun r => if r.pattern == pat then { r with response := res } else r)
  else rows ++ [⟨rows.length + 1, pat, res⟩]

/-- The initDb bootstrap: CREATE TABLE IF NOT EXISTS is a no-op on the
always-present tables of this model, then the two seeding inserts run. -/
def initDb (db : Db) : Db :=
  { db with
      user_data := insertUserDataSeed db.user_data,
      responses := responsesSeed.foldl (fun rs t => upsertResponse rs t.1 t.2) db.responses }

/-- Fresh database: empty tables, serial counter at one. -/
def dbEmpty : Db := ⟨[], [], [], 1, 0⟩

/-- Database right after one bootstrap run. -/
def seededDb : Db := initDb dbEmpty

/-- Texts consisting only of trigger keywords and whitespace. -/
inductive TrigWs : List Char → Prop where
  | nil : TrigWs []
  | ws (c : Char) (s : List Char) : isJsSpace c = true → TrigWs s → TrigWs (c :: s)
  | trig (t s : List Char) : t ∈ triggers → TrigWs s → TrigWs (t ++ s)

/-- Invariant of a messages row: non-empty content and a sender that is
either user or bot. -/
def messageInv (m : MessageRow) : Prop :=
  m.content ≠ [] ∧ (m.sender = "user".toList ∨ m.sender = "bot".toList)

/-! Helper lemmas about the LIKE matcher. -/

/-- Unfolding of the matcher at a leading percent. -/
theorem likeMatch_percent (ps s : List Char) :
    likeMatch ('%' :: ps) s = s.tails.any (fun t => likeMatch ps t) := by
  simp [likeMatch]

/-- A leading percent can swallow everything before a suffix matched by
the remaining pattern. -/
theorem likeMatch_percent_of_suffix {ps u s : List Char} (hu : u <:+ s)
    (h : likeMatch ps u = true) : likeMatch ('%' :: ps) s = true := by
  rw [likeMatch_percent, List.any_eq_true]
  exact ⟨u, (List.mem_tails u s).mpr hu, h⟩

/-- A single percent matches every string. -/
theorem likeMatch_percent_nil (s : List Char) : likeMatch ['%'] s = true :=
  likeMatch_percent_of_suffix (List.nil_suffix (l := s)) rfl

/-- Matching extends on the left by any common literal block, wildcards
included. -/
theorem likeMatch_append_left (q : List Char) {ps s : List Char}
    (h : likeMatch ps s = true) : likeMatch (q ++ ps) (q ++ s) = true := by
  induction q with
  | nil => simpa using h
  | cons c q ih =>
    by_cases hc : c = '%'
    · subst hc
      exact likeMatch_percent_of_suffix (u := q ++ s) ⟨['%'], rfl⟩ ih
    · show likeMatch (c :: (q ++ ps)) (c :: (q ++ s)) = true
      by_cases hu : c = '_'
      · simp [likeMatch, hc, hu, ih]
      · simp [likeMatch, hc, hu, ih]

/-- A pattern that is a literal prefix of the string, followed by a
percent, matches the string. -/
theorem likeMatch_of_startsWith {p s : List Char} (h : p <+: s) :
    likeMatch (p ++ ['%']) s = true := by
  obtain ⟨r, rfl⟩ := h
  exact likeMatch_append_left p (likeMatch_percent_nil r)

/-- A pattern consisting of a literal block between two percents matches
any string containing that block. -/
theorem likeMatch_of_substring {q s : List Char} (h : q <:+: s) :
    likeMatch ('%' :: (q ++ ['%'])) s = true := by
  obtain ⟨a, b, rfl⟩ := h
  exact likeMatch_percent_of_suffix (u := q ++ b) ⟨a, (List.append_assoc a q b).symm⟩
    (likeMatch_of_startsWith ⟨b, rfl⟩)

/-! Helper lemmas about lowering and the fact search. -/

/-- Lowering a percent-delimited pattern lowers only the literal block. -/
theorem toLower_pat (q : List Char) :
    toLower ('%' :: (q ++ ['%'])) = '%' :: (toLower q ++ ['%']) := by
  simp [toLower]

/-- A row one of whose lowered fields contains the lowered query as a
substring passes the searchUserData predicate. -/
theorem rowMatches_of_substring {q : List Char} {r : UserDataRow}
    (h : toLower q <:+: toLower r.category ∨ toLower q <:+: toLower r.data_key ∨
      toLower q <:+: toLower r.data_value) :
    rowMatches q r = true := by
  rw [rowMatches, toLower_pat]
  rcases h with h | h | h <;> simp [likeMatch_of_substring h]

/-- The empty query passes the predicate on every row. -/
theorem rowMatches_nil (r : UserDataRow) : rowMatches [] r = true := by
  apply rowMatches_of_substring
  exact Or.inl ⟨[], toLower r.category, by simp [toLower]⟩

/-! Helper lemmas about the trigger stripping scanner. -/

/-- The skip counter walks over exactly the block it was set for. -/
theorem stripAux_skip (l s : List Char) : stripAux l.length (l ++ s) = stripAux 0 s := by
  induction l with
  | nil => rfl
  | cons c l ih => exact ih

/-- No trigger keyword is a proper prefix of another. -/
theorem triggers_no_overlap :
    ∀ a ∈ triggers, ∀ b ∈ triggers, a.isPrefixOf b = true → a = b := by decide

/-- At the start of a stored trigger keyword the scanner matches exactly
that keyword. -/
theorem firstTrigger_append {t : List Char} (ht : t ∈ triggers) (s : List Char) :
    firstTrigger (t ++ s) = some t := by
  have hsome : (firstTrigger (t ++ s)).isSome := by
    rw [firstTrigger, List.find?_isSome]
    exact ⟨t, ht, List.isPrefixOf_iff_prefix.mpr ⟨s, rfl⟩⟩
  obtain ⟨u, hu⟩ := Option.isSome_iff_exists.mp hsome
  have hu' : List.find? (fun x => x.isPrefixOf (t ++ s)) triggers = some u := hu
  have humem : u ∈ triggers := List.mem_of_find?_eq_some hu'
  have hup : u <+: t ++ s := List.isPrefixOf_iff_prefix.mp (by simpa using List.find?_some hu')
  have htp : t <+: t ++ s := ⟨s, rfl⟩
  have hut : u = t := by
    rcases List.prefix_or_prefix_of_prefix hup htp with h | h
    · exact triggers_no_overlap u humem t ht (List.isPrefixOf_iff_prefix.mpr h)
    · exact (triggers_no_overlap t ht u humem (List.isPrefixOf_iff_prefix.mpr h)).symm
  rw [hu, hut]

/-- At a whitespace character no trigger keyword matches. -/
theorem firstTrigger_space {c : Char} (hc : isJsSpace c = true) (s : List Char) :
    firstTrigger (c :: s) = none := by
  rw [firstTrigger, List.find?_eq_none]
  intro t ht hp
  have hhead : ∀ u ∈ triggers, u ≠ [] ∧ isJsSpace (u.headD 'a') = false := by decide
  obtain ⟨hne, hsp⟩ := hhead t ht
  cases t with
  | nil => exact hne rfl
  | cons d tl =>
    obtain ⟨r, hr⟩ := List.isPrefixOf_iff_prefix.mp hp
    have hd : d = c := by
      have := congrArg (fun l => l.headD 'a') hr
      simpa using this
    rw [show (d :: tl).headD 'a' = d from rfl, hd, hc] at hsp
    exact Bool.noConfusion hsp

/-- Stripping a text of trigger keywords and whitespace leaves only
whitespace. -/
theorem strip_trigws {s : List Char} (h : TrigWs s) :
    ∀ c ∈ stripTriggers s, isJsSpace c = true := by
  induction h with
  | nil => intro c hc; simp [stripTriggers, stripAux] at hc
  | ws d s hd _ ih =>
    intro c hc
    rw [stripTriggers] at hc
    rw [show stripAux 0 (d :: s) = d :: stripAux 0 s by rw [stripAux, firstTrigger_space hd]] at hc
    rcases List.mem_cons.mp hc with h | h
    · rw [h]; exact hd
    · exact ih c h
  | trig t s ht _ ih =>
    intro c hc
    have hstep : stripTriggers (t ++ s) = stripTriggers s := by
      cases t with
      | nil => exact absurd ht (by decide)
      | cons d tl =>
        show stripAux 0 (d :: (tl ++ s)) = _
        rw [stripAux, show firstTrigger (d :: (tl ++ s)) = some (d :: tl) from
          firstTrigger_append ht s]
        exact stripAux_skip tl s
    rw [hstep] at hc
    exact ih c hc

/-- Trimming an all-whitespace string yields the empty string. -/
theorem trim_all_space {l : List Char} (h : ∀ c ∈ l, isJsSpace c = true) : trim l = [] := by
  have h1 : List.dropWhile isJsSpace l.reverse = [] :=
    List.dropWhile_eq_nil_iff.mpr (fun x hx => h x (List.mem_reverse.mp hx))
  simp [trim, trimLeft, h1]

/-- The search term of a triggers-and-whitespace text is empty. -/
theorem searchTerm_trigws {s : List Char} (h : TrigWs s) : searchTerm s = [] :=
  trim_all_space (strip_trigws h)

/-! Helper lemmas about serialization and persistence. -/

/-- The serialized reply always starts with an opening brace, hence is
never empty. -/
theorem stringifyReply_ne_nil (r : Reply) : stringifyReply r ≠ [] := by
  cases r with
  | text s =>
    intro h
    simp only [stringifyReply] at h
    exact absurd (List.append_eq_nil.mp h).1 (by decide)
  | data rows =>
    intro h
    simp only [stringifyReply] at h
    exact absurd (List.append_eq_nil.mp h).1 (by decide)

/-- Inserting a row with non-empty content and a user or bot sender
preserves the message invariant. -/
theorem saveMessage_inv {db : Db} {content sender : List Char}
    (hdb : ∀ x ∈ db.messages, messageInv x) (hc : content ≠ [])
    (hs : sender = "user".toList ∨ sender = "bot".toList) :
    ∀ x ∈ (saveMessage db content sender).messages, messageInv x := by
  intro x hx
  simp only [saveMessage] at hx
  rcases List.mem_append.mp hx with h | h
  · exact hdb x h
  · rw [List.mem_singleton.mp h]
    exact ⟨hc, hs⟩

/-- A member of any trigger list text is itself a triggers-and-whitespace
text. -/
theorem trigws_single {t : List Char} (ht : t ∈ triggers) : TrigWs t := by
  have h := TrigWs.trig t [] ht TrigWs.nil
  simpa using h

/-! Claim theorems. -/

/-- C1 counterexample: with the bot-message persist failing after the
answer has been computed, the chat endpoint answers 500 with the thrown
message instead of returning the reply with success status, refuting the
claim that the reply is still returned to the caller. -/
theorem c1_counterexample :
    (handleChat dbEmpty false false true (some ("hello".toList))).1
        = ChatRes.serverError ("Failed to save message".toList)
    ∧ (handleChat dbEmpty false false true (some ("hello".toList))).1
        ≠ ChatRes.ok (Reply.text fallbackText) := by decide

/-- C1 amended: for every turn that reaches step 5, a failure while
persisting the bot's reply message makes saveMessage log and rethrow;
the handler's single catch then answers 500 with that error message, so
the caller does not receive the reply, and only the user message has
been persisted. -/
theorem c1_amended (db : Db) (m : List Char) (h : m.isEmpty = false) :
    handleChat db false false true (some m)
      = (ChatRes.serverError ("Failed to save message".toList),
          saveMessage db m ("user".toList)) := by
  simp [handleChat, h]

/-- C1 witness: the amended statement at message hello on the fresh
database. -/
theorem c1_witness :
    ("hello".toList).isEmpty = false
    ∧ handleChat dbEmpty false false true (some ("hello".toList))
        = (ChatRes.serverError ("Failed to save message".toList),
            saveMessage dbEmpty ("hello".toList) ("user".toList)) :=
  ⟨by decide, c1_amended dbEmpty ("hello".toList) (by decide)⟩

/-- C2: for every message containing a trigger keyword whose stripped
and trimmed search term occurs case-insensitively in the category, key
or value of at least one fact, findResponse returns the data answer of
exactly the searchUserData result, that result contains every matching
fact, and no pattern fallthrough occurs. -/
theorem c2_data_search (db : Db) (msg : List Char)
    (htrig : containsTrigger (toLower msg) = true)
    (f : UserDataRow) (hf : f ∈ db.user_data)
    (hm : toLower (searchTerm (toLower msg)) <:+: toLower f.category ∨
      toLower (searchTerm (toLower msg)) <:+: toLower f.data_key ∨
      toLower (searchTerm (toLower msg)) <:+: toLower f.data_value) :
    findResponse db msg
        = Reply.data (searchUserData db.user_data (searchTerm (toLower msg)))
    ∧ (∀ g ∈ db.user_data,
        (toLower (searchTerm (toLower msg)) <:+: toLower g.category ∨
          toLower (searchTerm (toLower msg)) <:+: toLower g.data_key ∨
          toLower (searchTerm (toLower msg)) <:+: toLower g.data_value) →
        g ∈ searchUserData db.user_data (searchTerm (toLower msg)))
    ∧ ∀ s, findResponse db msg ≠ Reply.text s := by
  have hmem : f ∈ searchUserData db.user_data (searchTerm (toLower msg)) :=
    List.mem_filter.mpr ⟨hf, rowMatches_of_substring hm⟩
  have hne : (searchUserData db.user_data (searchTerm (toLower msg))).isEmpty = false :=
    List.isEmpty_eq_false.mpr (List.ne_nil_of_mem hmem)
  have hmain : findResponse db msg
      = Reply.data (searchUserData db.user_data (searchTerm (toLower msg))) := by
    simp [findResponse, htrig, hne]
  refine ⟨hmain, ?_, ?_⟩
  · intro g hg hmg
    exact List.mem_filter.mpr ⟨hg, rowMatches_of_substring hmg⟩
  · intro s h
    rw [hmain] at h
    exact Reply.noConfusion h

/-- C2 witness: message "find name" on the seeded database matches the
name fact. -/
theorem c2_witness :
    containsTrigger (toLower ("find name".toList)) = true
    ∧ findResponse seededDb ("find name".toList)
        = Reply.data (searchUserData seededDb.user_data
            (searchTerm (toLower ("find name".toList)))) :=
  ⟨by decide,
    (c2_data_search seededDb ("find name".toList) (by decide)
      ⟨1, "personal".toList, "name".toList, "John Doe".toList⟩ (by decide)
      (Or.inr (Or.inl (by decide)))).1⟩

/-- C3: whenever the normalized message starts, case-insensitively, with
the pattern of some stored row, the prefix pass finds a row and pattern
resolution returns that prefix-pass match; the containment pass never
decides the result. -/
theorem c3_prefix_pass (rs : List ResponseRow) (lmsg : List Char) (r : ResponseRow)
    (hr : r ∈ rs) (hpre : toLower r.pattern <+: toLower lmsg) :
    ∃ r0, exactRow rs lmsg = some r0
      ∧ patternResponse rs lmsg = Reply.text (respOrFallback (some r0)) := by
  have hsome : (exactRow rs lmsg).isSome := by
    rw [exactRow, List.find?_isSome]
    exact ⟨r, hr, likeMatch_of_startsWith hpre⟩
  obtain ⟨r0, h0⟩ := Option.isSome_iff_exists.mp hsome
  exact ⟨r0, h0, by simp [patternResponse, h0]⟩

/-- C3 witness: on the seeded rows, the message "hello there" starts
with the stored pattern hello. -/
theorem c3_witness :
    (⟨1, "hello".toList,
        "Hi there! I\x27m your chatbot assistant. How can I help you today?".toList⟩ :
      ResponseRow) ∈ seededDb.responses
    ∧ ∃ r0, exactRow seededDb.responses ("hello there".toList) = some r0
        ∧ patternResponse seededDb.responses ("hello there".toList)
            = Reply.text (respOrFallback (some r0)) :=
  ⟨by decide,
    c3_prefix_pass seededDb.responses ("hello there".toList)
      ⟨1, "hello".toList,
        "Hi there! I\x27m your chatbot assistant. How can I help you today?".toList⟩
      (by decide) (by decide)⟩

/-- C5: when the data-search path matches no fact (no trigger, or an
empty search result) and neither pattern pass finds a row, findResponse
returns exactly the fixed fallback text. -/
theorem c5_fallback (db : Db) (msg : List Char)
    (hdata : containsTrigger (toLower msg) = false
      ∨ searchUserData db.user_data (searchTerm (toLower msg)) = [])
    (hex : exactRow db.responses (toLower msg) = none)
    (hfz : fuzzyRow db.responses (toLower msg) = none) :
    findResponse db msg = Reply.text fallbackText := by
  have hpat : patternResponse db.responses (toLower msg) = Reply.text fallbackText := by
    simp [patternResponse, hex, hfz, respOrFallback]
  cases ht : containsTrigger (toLower msg) with
  | false => simp [findResponse, ht, hpat]
  | true =>
    rcases hdata with h | h
    · exact Bool.noConfusion (ht.symm.trans h)
    · simp [findResponse, ht, h, hpat]

/-- C5 witness: the message "xyzzy" matches nothing on the seeded
database and gets the fallback. -/
theorem c5_witness :
    exactRow seededDb.responses (toLower ("xyzzy".toList)) = none
    ∧ fuzzyRow seededDb.responses (toLower ("xyzzy".toList)) = none
    ∧ findResponse seededDb ("xyzzy".toList) = Reply.text fallbackText :=
  ⟨by decide, by decide,
    c5_fallback seededDb ("xyzzy".toList) (Or.inl (by decide)) (by decide) (by decide)⟩

/-- C6: a missing or empty message is rejected with the 400 body before
any message row is persisted and before the resolver runs: the database
is returned unchanged whatever the failure flags, and no reply is
produced. -/
theorem c6_validation (db : Db) (fU fR fB : Bool) :
    handleChat db fU fR fB none
        = (ChatRes.badRequest ("Message is required".toList), db)
    ∧ handleChat db fU fR fB (some [])
        = (ChatRes.badRequest ("Message is required".toList), db) :=
  ⟨rfl, rfl⟩

/-- C7: a message with no trigger keyword resolves purely through the
pattern stage, which reads only the responses table, and the result is
always a text answer. -/
theorem c7_no_trigger (db : Db) (msg : List Char)
    (h : containsTrigger (toLower msg) = false) :
    findResponse db msg = patternResponse db.responses (toLower msg)
    ∧ ∃ s, findResponse db msg = Reply.text s := by
  have h1 : findResponse db msg = patternResponse db.responses (toLower msg) := by
    simp [findResponse, h]
  refine ⟨h1, ?_⟩
  rw [h1]
  cases hcase : exactRow db.responses (toLower msg) with
  | some r =>
    exact ⟨respOrFallback (some r), by simp [patternResponse, hcase]⟩
  | none =>
    exact ⟨respOrFallback (fuzzyRow db.responses (toLower msg)),
      by simp [patternResponse, hcase]⟩

/-- C7 witness: the message "hello" contains no trigger keyword. -/
theorem c7_witness :
    containsTrigger (toLower ("hello".toList)) = false
    ∧ (findResponse seededDb ("hello".toList)
          = patternResponse seededDb.responses (toLower ("hello".toList))
      ∧ ∃ s, findResponse seededDb ("hello".toList) = Reply.text s) :=
  ⟨by decide, c7_no_trigger seededDb ("hello".toList) (by decide)⟩

/-- C8: clearing removes all messages unconditionally; a history fetch
after a clear returns zero rows with totalMessages zero and totalPages
zero (ceil of zero over the limit); and every history fetch returns its
rows ordered oldest-first. -/
theorem c8_clear_history (db : Db) (page limit : Nat) :
    (clearMessages db).messages = []
    ∧ getMessages (clearMessages db) page limit = ([], ⟨page, 0, 0⟩)
    ∧ List.Sorted byTime (getMessages db page limit).1 := by
  refine ⟨rfl, ?_, ?_⟩
  · have hdiv : (limit - 1) / limit = 0 := by
      cases limit with
      | zero => rfl
      | succ k => exact Nat.div_eq_of_lt (by omega)
    simp [getMessages, clearMessages, List.insertionSort, hdiv]
  · have hs := List.sorted_insertionSort byTime db.messages
    have hsub : (((List.insertionSort byTime db.messages).drop
          ((page - 1) * limit)).take limit).Sublist
        (List.insertionSort byTime db.messages) :=
      (List.take_sublist _ _).trans (List.drop_sublist _ _)
    exact List.Pairwise.sublist hsub hs

/-- C9: every message row created through the chat endpoint has
non-empty content and a user or bot sender; the invariant is preserved
whatever the input and failure flags. -/
theorem c9_message_invariant (db : Db) (fU fR fB : Bool) (input : Option (List Char))
    (hdb : ∀ x ∈ db.messages, messageInv x) :
    ∀ x ∈ (handleChat db fU fR fB input).2.messages, messageInv x := by
  cases input with
  | none => simpa [handleChat] using hdb
  | some m =>
    cases hm : m.isEmpty with
    | true => simpa [handleChat, hm] using hdb
    | false =>
      have hmne : m ≠ [] := List.isEmpty_eq_false.mp hm
      have h1 : ∀ x ∈ (saveMessage db m ("user".toList)).messages, messageInv x :=
        saveMessage_inv hdb hmne (Or.inl rfl)
      cases fU with
      | true => simpa [handleChat, hm] using hdb
      | false =>
        cases fR with
        | true => simpa [handleChat, hm] using h1
        | false =>
          cases fB with
          | true => simpa [handleChat, hm] using h1
          | false =>
            have h2 := saveMessage_inv h1
              (stringifyReply_ne_nil (findResponse (saveMessage db m ("user".toList)) m))
              (Or.inr rfl)
            simpa [handleChat, hm] using h2

/-- C9 witness: the invariant after one successful turn on the fresh
database. -/
theorem c9_witness :
    (∀ x ∈ dbEmpty.messages, messageInv x)
    ∧ ∀ x ∈ (handleChat dbEmpty false false false (some ("hi".toList))).2.messages,
        messageInv x :=
  ⟨by simp [dbEmpty],
    c9_message_invariant dbEmpty false false false (some ("hi".toList)) (by simp [dbEmpty])⟩

/-- C10: for a message consisting only of trigger keywords and
whitespace, the stripped search term is empty, the empty term matches
every fact, and on a non-empty fact store findResponse returns the data
answer holding all facts. -/
theorem c10_trigger_only (db : Db) (msg : List Char)
    (hws : TrigWs (toLower msg)) (htrig : containsTrigger (toLower msg) = true)
    (hne : db.user_data ≠ []) :
    searchTerm (toLower msg) = [] ∧ findResponse db msg = Reply.data db.user_data := by
  have hq : searchTerm (toLower msg) = [] := searchTerm_trigws hws
  refine ⟨hq, ?_⟩
  have hall : searchUserData db.user_data (searchTerm (toLower msg)) = db.user_data := by
    rw [hq]
    exact List.filter_eq_self.mpr (fun r _ => rowMatches_nil r)
  have hemp : db.user_data.isEmpty = false := List.isEmpty_eq_false.mpr hne
  simp [findResponse, htrig, hall, hemp]

/-- C10 witness: the message "find get" on the seeded database. -/
theorem c10_witness :
    containsTrigger (toLower ("find get".toList)) = true
    ∧ (searchTerm (toLower ("find get".toList)) = []
      ∧ findResponse seededDb ("find get".toList) = Reply.data seededDb.user_data) := by
  refine ⟨by decide, ?_⟩
  refine c10_trigger_only seededDb ("find get".toList) ?_ (by decide) (by decide)
  rw [show toLower ("find get".toList) = "find get".toList from by decide]
  have h2 : TrigWs (' ' :: "get".toList) :=
    TrigWs.ws ' ' ("get".toList) (by decide) (trigws_single (by decide))
  have h3 := TrigWs.trig ("find".toList) (' ' :: "get".toList) (by decide) h2
  have he : "find".toList ++ (' ' :: "get".toList) = "find get".toList := by decide
  exact he ▸ h3

/-- C4: evaluating the bootstrap at the failing input.  Running initDb
twice from an empty database leaves eight user_data rows instead of the
four seeds, because the table has no unique constraint for ON CONFLICT
DO NOTHING to act on, while the responses upsert is idempotent. -/
theorem c4_initdb_duplicates_facts :
    (initDb seededDb).user_data.length = 8
    ∧ seededDb.user_data.length = 4
    ∧ (initDb seededDb).responses = seededDb.responses := by decide

end Chatbot
